import Mathlib

/-!
Verification of the price-based trading bot core against its specification.

The definitions below are a shallow embedding of the JavaScript sources
(src/patternDetection.js and src/simplePriceBasedTradingService.js).
JavaScript numbers are modelled as rationals, Date timestamps as rational
milliseconds, and JavaScript Sets as lists with an insert-if-absent
operation.  Fallible operations return explicit result types.
-/

/-! ## Pattern matcher (src/patternDetection.js) -/

/-- A numeric range with inclusive bounds, as in patterns.json entries. -/
structure NumRange where
  min : ℚ
  max : ℚ
deriving DecidableEq, Repr

/-- A trading pattern record: name, enabled flag, priority and the two
gas ranges used by the matcher. -/
structure TradingPattern where
  name : String
  enabled : Bool
  priority : Int
  gasPrice : NumRange
  gasLimit : NumRange
deriving DecidableEq, Repr

/-- A token-creation event as produced by the discovery scanner. -/
structure TokenCreation where
  tokenAddress : String
  creatorAddress : String
  timestamp : ℚ
  gasPriceGwei : ℚ
  gasLimit : ℚ
deriving DecidableEq, Repr

/-- The predicate tested inside matchPattern: both the observed gas price
and the observed gas limit lie in the pattern ranges (inclusive). -/
def matchesRanges (tokenCreation : TokenCreation) (pattern : TradingPattern) : Bool :=
  decide (pattern.gasPrice.min ≤ tokenCreation.gasPriceGwei) &&
  decide (tokenCreation.gasPriceGwei ≤ pattern.gasPrice.max) &&
  decide (pattern.gasLimit.min ≤ tokenCreation.gasLimit) &&
  decide (tokenCreation.gasLimit ≤ pattern.gasLimit.max)

/-- matchPattern from src/patternDetection.js: Array.prototype.find over the
given list, returning the first element in list order whose ranges contain
the event (null, i.e. none, otherwise). -/
def matchPattern (tokenCreation : TokenCreation) (patterns : List TradingPattern) :
    Option TradingPattern :=
  patterns.find? (matchesRanges tokenCreation)

/-- loadPatterns from src/patternDetection.js: the patterns.json list is
filtered to enabled entries.  No sorting of any kind is applied. -/
def loadPatterns (raw : List TradingPattern) : List TradingPattern :=
  raw.filter (·.enabled)

/-- Specification-style first-match scan used to state the amended claim C1:
walk the raw list in its given order, skip disabled patterns, and return the
first enabled pattern whose ranges contain the event. -/
def firstEnabledMatch (tokenCreation : TokenCreation) :
    List TradingPattern → Option TradingPattern
  | [] => none
  | p :: ps =>
    if p.enabled && matchesRanges tokenCreation p then some p
    else firstEnabledMatch tokenCreation ps

def rangeC1 : NumRange := ⟨0, 100⟩

/-- Concrete enabled pattern with priority 2; its ranges contain evC1. -/
def patA : TradingPattern := ⟨"A", true, 2, rangeC1, rangeC1⟩

/-- Concrete enabled pattern with priority 1; its ranges contain evC1. -/
def patB : TradingPattern := ⟨"B", true, 1, rangeC1, rangeC1⟩

/-- Concrete disabled pattern whose ranges also contain evC1. -/
def patOff : TradingPattern := ⟨"off", false, 0, rangeC1, rangeC1⟩

/-- Concrete token-creation event with gas price 50 Gwei and gas limit 50. -/
def evC1 : TokenCreation := ⟨"0xtoken", "0xcreator", 0, 50, 50⟩

/-- C1 counterexample: both patA (priority 2) and patB (priority 1) are
enabled and match evC1, yet the matcher returns patA when patA is listed
first — the claimed ascending-priority order is not applied, and the result
changes when the list is reordered, refuting the claimed order-independence. -/
theorem C1_counterexample :
    matchPattern evC1 [patA, patB] = some patA ∧
    patB.priority < patA.priority ∧
    patB.enabled = true ∧
    matchesRanges evC1 patB = true ∧
    matchPattern evC1 [patA, patB] ≠ matchPattern evC1 [patB, patA] := by
  refine ⟨by decide, by decide, by decide, by decide, by decide⟩

/-- C1 amended: the matcher considers only enabled patterns in the order of
the raw list (loadPatterns filters to enabled, preserving order, and applies
no priority sort); it returns the first pattern in list order whose gas-price
and gas-limit ranges contain the event, and none exactly when no enabled
pattern matches.  Any returned pattern is an enabled, matching member of the
raw list. -/
theorem C1_amended_matchPattern (tokenCreation : TokenCreation)
    (raw : List TradingPattern) :
    matchPattern tokenCreation (loadPatterns raw) =
      firstEnabledMatch tokenCreation raw ∧
    (matchPattern tokenCreation (loadPatterns raw) = none ↔
      ∀ p ∈ raw, p.enabled = true → matchesRanges tokenCreation p = false) ∧
    (∀ p, matchPattern tokenCreation (loadPatterns raw) = some p →
      p ∈ raw ∧ p.enabled = true ∧ matchesRanges tokenCreation p = true) := by
  refine ⟨?_, ?_, ?_⟩
  · induction raw with
    | nil => rfl
    | cons q qs ih =>
      by_cases hq : q.enabled = true
      · by_cases hm : matchesRanges tokenCreation q = true
        · show (List.filter _ (q :: qs)).find? _ = _
          rw [List.filter_cons_of_pos (by simpa using hq)]
          simp [List.find?, hm, firstEnabledMatch, hq]
        · show (List.filter _ (q :: qs)).find? _ = _
          rw [List.filter_cons_of_pos (by simpa using hq)]
          simp only [List.find?, hm, firstEnabledMatch, hq, Bool.true_and,
            if_neg (by simp [hm] : ¬(matchesRanges tokenCreation q = true))]
          exact ih
      · show (List.filter _ (q :: qs)).find? _ = _
        rw [List.filter_cons_of_neg (by simpa using hq)]
        simp only [firstEnabledMatch, Bool.and_eq_true]
        rw [if_neg (by simp [hq])]
        exact ih
  · constructor
    · intro hnone p hp hen
      have := List.find?_eq_none.mp hnone p
        (by simpa [loadPatterns, List.mem_filter, hen] using hp)
      simpa using this
    · intro hall
      apply List.find?_eq_none.mpr
      intro p hp
      have hmem : p ∈ raw ∧ p.enabled = true := by
        simpa [loadPatterns, List.mem_filter] using hp
      simp [hall p hmem.1 hmem.2]
  · intro p hfind
    have hmem : p ∈ loadPatterns raw := List.mem_of_find?_eq_some hfind
    have hpred : matchesRanges tokenCreation p = true := List.find?_some hfind
    have : p ∈ raw ∧ p.enabled = true := by
      simpa [loadPatterns, List.mem_filter] using hmem
    exact ⟨this.1, this.2, hpred⟩

/-- Witness for C1_amended_matchPattern at a concrete list containing a
disabled matching pattern followed by an enabled matching one. -/
theorem C1_amended_witness :
    matchPattern evC1 (loadPatterns [patOff, patA]) = some patA ∧
    patA ∈ [patOff, patA] ∧ patA.enabled = true ∧
    matchesRanges evC1 patA = true := by
  have h := C1_amended_matchPattern evC1 [patOff, patA]
  have hsome : matchPattern evC1 (loadPatterns [patOff, patA]) = some patA := by
    decide
  exact ⟨hsome, (h.2.2 patA hsome).1, (h.2.2 patA hsome).2.1, (h.2.2 patA hsome).2.2⟩

/-! ## Token price reader (getTokenPrice in src/simplePriceBasedTradingService.js) -/

/-- JavaScript toLowerCase on an ASCII address string. -/
def jsToLower (s : String) : String := String.mk (s.data.map Char.toLower)

/-- The wrapped-native (WBNB) quote address constant from getTokenPrice. -/
def WBNB_ADDRESS : String := "0xbb4CdB9CBd36B01bD1cBaEBF2De08d9173bc095c"

/-- The recognized stable quote addresses (BSC_STABLES), already lowercase
in the source. -/
def BSC_STABLES : List String :=
  ["0x55d398326f99059ff775485246999027b3197955",
   "0x8ac76a51cc950d9822d68b83fe1ad97b32cd580d",
   "0x90c97f71e18723b0cf0dfa30ee176ab653e89f40",
   "0xe0e514c71282b6f4e823703a39374cf58dc3ea4f",
   "0x1b80eeead41c2ed6cc1f70f76105f0e4e0f76d1c",
   "0x1fad948c7f211bcae0d67b2b31c6bd3fa69a3c7f",
   "0xe0007e25c4d4c8e6aa2f17b84da7b7c8f7c3f2b7"]

/-- The fields of the on-chain getTokenInfo answer that getTokenPrice uses:
the quote asset address and the raw last trade price. -/
structure TokenInfoData where
  quote : String
  lastPrice : ℚ
deriving DecidableEq, Repr

/-- A successful price read: the BNB-denominated and fiat-denominated price. -/
structure PriceQuote where
  priceBNB : ℚ
  priceUSD : ℚ
deriving DecidableEq, Repr

/-- Result of getTokenPrice: success with both prices, or a failure message. -/
inductive PriceResult where
  | ok (q : PriceQuote)
  | err (msg : String)
deriving DecidableEq, Repr

def errNoLiquidity : String := "Token may be too new or not have liquidity yet"

def errInvalidPrice : String := "Price appears to be invalid or token too new"

/-- 10^18, the fixed-point scale of the helper contract lastPrice. -/
def e18 : ℚ := 10 ^ 18

/-- The lower bound of the plausible fiat band. -/
def bandLo : ℚ := 1 / 10 ^ 8

/-- The BNB-price threshold below which the unknown-quote branch converts
to fiat. -/
def smallBNBCutoff : ℚ := 1 / 10 ^ 6

/-- getTokenPrice: classify the quote asset, normalize the raw last price to
BNB and fiat, validate the fiat value against the plausible band.  The
warned-set of addresses that already logged the unknown-quote warning is
threaded explicitly; the returned Bool records whether this call logged that
warning. -/
def getTokenPrice (tokenAddress : String) (info : TokenInfoData) (bnbPriceUSD : ℚ)
    (warned : List String) : PriceResult × List String × Bool :=
  if info.lastPrice > 0 then
    let quoteTokenLc := jsToLower info.quote
    let addrLc := jsToLower tokenAddress
    let step :
        ℚ × ℚ × List String × Bool :=
      if quoteTokenLc = jsToLower WBNB_ADDRESS then
        let lastPriceBNB := info.lastPrice / e18
        (lastPriceBNB, lastPriceBNB * bnbPriceUSD, warned, false)
      else if BSC_STABLES.contains quoteTokenLc then
        let lastPriceUSD := info.lastPrice / e18
        (lastPriceUSD / bnbPriceUSD, lastPriceUSD, warned, false)
      else
        let warnNow := !warned.contains addrLc
        let warned2 := if warned.contains addrLc then warned else addrLc :: warned
        let lastPriceBNB := info.lastPrice / e18
        let priceUSD :=
          if lastPriceBNB < smallBNBCutoff then lastPriceBNB * bnbPriceUSD
          else lastPriceBNB
        (lastPriceBNB, priceUSD, warned2, warnNow)
    let priceInBNB := step.1
    let priceInUSD := step.2.1
    if bandLo ≤ priceInUSD ∧ priceInUSD ≤ 1 then
      (.ok ⟨priceInBNB, priceInUSD⟩, step.2.2.1, step.2.2.2)
    else
      (.err errInvalidPrice, step.2.2.1, step.2.2.2)
  else
    (.err errNoLiquidity, warned, false)

/-! ## Monitored token registry state and configuration -/

/-- A monitored token record, with the fields of the object created in
processNewToken plus the fields added later by the buy/sell paths
(modelled with explicit defaults for the JavaScript undefined state). -/
structure Token where
  tokenAddress : String
  currentPriceUSD : ℚ
  previousPriceUSD : ℚ
  priceChangePercent : ℚ
  lastPriceUpdate : ℚ
  lastPriceChange : ℚ
  isActive : Bool
  positionOpen : Bool
  buyPriceUSD : ℚ
  buyTime : Option ℚ
  buyTransactionHash : Option String
  sellPriceUSD : ℚ
  sellTransactionHash : Option String
  peakPriceSinceLastSell : ℚ
  hasSoldHalf : Bool
  hasBeenTraded : Bool
  lastSellPriceUSD : ℚ
  lastSellAttemptAt : Option ℚ
  lastSellTime : Option ℚ
  tradeCount : Nat
  tradeCycle : Nat
  hasCompletedFirstCycle : Bool
  lowPriceSince : Option ℚ
deriving DecidableEq, Repr

/-- The trading section of the configuration bundle; option-valued fields are
the ones the source reads with a null-coalescing default. -/
structure TradingConfig where
  testMode : Bool
  reentryEnabled : Bool
  maxTradesPerCycle : Option Nat
  lowThresholdUSD : ℚ
  reentryLowThresholdUSD : Option ℚ
  sellCooldownSeconds : ℚ
deriving DecidableEq, Repr

/-- The monitoring section of the configuration bundle. -/
structure MonitoringConfig where
  priceChangeThreshold : ℚ
  inactiveTimeoutMinutes : ℚ
  lowPriceRemovalUSD : Option ℚ
  lowPriceRemovalMinutes : Option ℚ
  maxConcurrentTokens : Nat
deriving DecidableEq, Repr

/-- The aggregate trade statistics counters. -/
structure TradeStats where
  totalTrades : Nat
  successfulBuys : Nat
  successfulSells : Nat
  totalProfitUSD : ℚ
  tokensMonitored : Nat
  tokensTraded : Nat
deriving DecidableEq, Repr

/-- Outcome of a delegated order submission (success with a transaction hash,
or failure; a thrown error behaves like a failure for the state updates). -/
inductive TradeOutcome where
  | success (txHash : String)
  | failure (msg : String)
deriving DecidableEq, Repr

/-- Sell amount mode. -/
inductive SellMode where
  | half
  | all
deriving DecidableEq, Repr

/-- The hardcoded sell parameters of checkTradingOpportunities. -/
def firstSellPercent : ℚ := 20

def secondSellPercent : ℚ := 50

def stopLossFromPeakPercent : ℚ := 15

def priceStagnationTimeoutSeconds : ℚ := 30

/-- Set.add on the traded-token set: insert if absent. -/
def tradedInsert (addr : String) (traded : List String) : List String :=
  if traded.contains addr then traded else addr :: traded

/-- The monitored token created by processNewToken, before any trading. -/
def initialToken (tokenCreation : TokenCreation) (initialPriceUSD : ℚ) (now : ℚ) :
    Token where
  tokenAddress := jsToLower tokenCreation.tokenAddress
  currentPriceUSD := initialPriceUSD
  previousPriceUSD := initialPriceUSD
  priceChangePercent := 0
  lastPriceUpdate := now
  lastPriceChange := now
  isActive := true
  positionOpen := false
  buyPriceUSD := 0
  buyTime := none
  buyTransactionHash := none
  sellPriceUSD := 0
  sellTransactionHash := none
  peakPriceSinceLastSell := 0
  hasSoldHalf := false
  hasBeenTraded := false
  lastSellPriceUSD := 0
  lastSellAttemptAt := none
  lastSellTime := none
  tradeCount := 0
  tradeCycle := 0
  hasCompletedFirstCycle := false
  lowPriceSince := none

/-! ## Trade executor (executeBuy / executeSell) -/

/-- The state written on a successful (or test-mode) buy inside executeBuy. -/
def buySuccessState (t : Token) (txHash : String) (now : ℚ) : Token :=
  { t with
    hasBeenTraded := true
    buyPriceUSD := t.currentPriceUSD
    buyTransactionHash := some txHash
    peakPriceSinceLastSell := t.currentPriceUSD
    hasSoldHalf := false
    buyTime := some now }

/-- executeBuy: guard the per-token trade cap, then either the test-mode
path (always counted as a successful buy) or the delegated submission whose
failure rolls back the optimistic positionOpen flag set by the caller. -/
def executeBuy (cfg : TradingConfig) (t : Token) (s : TradeStats)
    (outcome : TradeOutcome) (now : ℚ) : Token × TradeStats :=
  let maxTradesPerToken := cfg.maxTradesPerCycle.getD 2
  if t.tradeCount ≥ maxTradesPerToken then (t, s)
  else if cfg.testMode then
    (buySuccessState t "TEST_BUY" now,
     { s with successfulBuys := s.successfulBuys + 1 })
  else
    match outcome with
    | .success tx =>
      (buySuccessState t tx now,
       { s with
          successfulBuys := s.successfulBuys + 1
          totalTrades := s.totalTrades + 1 })
    | .failure _ => ({ t with positionOpen := false }, s)

/-- removeTokenFromMonitoring, at the level of a single token: a no-op when
the token was already removed from the map, otherwise deactivate and count
it in tokensTraded when it has been traded. -/
def removeTokenFromMonitoring (t : Token) (s : TradeStats) (removed : Bool) :
    Token × TradeStats × Bool :=
  if removed then (t, s, removed)
  else
    ({ t with isActive := false },
     if t.hasBeenTraded then { s with tokensTraded := s.tokensTraded + 1 } else s,
     true)

/-- The full-sell success bookkeeping shared by the test-mode and real paths
of executeSell: record the sell, close the position, then either roll into a
re-entry cycle or finalize into the traded set and remove the token. -/
def fullSellSuccess (cfg : TradingConfig) (t : Token) (s : TradeStats)
    (traded : List String) (txHash : String) (now : ℚ) (removed : Bool) :
    Token × TradeStats × List String × Bool :=
  let t1 := { t with
    sellTransactionHash := some txHash
    positionOpen := false
    lastSellPriceUSD := t.currentPriceUSD }
  let maxTradesPerToken := cfg.maxTradesPerCycle.getD 2
  if cfg.reentryEnabled ∧ t1.tradeCount + 1 < maxTradesPerToken then
    ({ t1 with
        lastSellTime := some now
        tradeCount := t1.tradeCount + 1
        tradeCycle := t1.tradeCycle + 1
        hasCompletedFirstCycle := true
        hasBeenTraded := false
        buyPriceUSD := 0
        peakPriceSinceLastSell := 0
        hasSoldHalf := false
        sellTransactionHash := none },
     s, traded, removed)
  else
    let traded1 := tradedInsert t1.tokenAddress traded
    let r := removeTokenFromMonitoring t1 s removed
    (r.1, r.2.1, traded1, r.2.2)

/-- executeSell: cooldown guard, then the test-mode path (always successful)
or the delegated submission; a successful full sell updates stats and either
re-enters or finalizes, a successful half sell only records the partial-exit
marker, and a failure leaves the state unchanged apart from the
lastSellAttemptAt anchor written before the attempt. -/
def executeSell (cfg : TradingConfig) (t : Token) (s : TradeStats)
    (traded : List String) (mode : SellMode) (outcome : TradeOutcome) (now : ℚ)
    (removed : Bool) : Token × TradeStats × List String × Bool :=
  let cooldownMs := max 0 (cfg.sellCooldownSeconds * 1000)
  let inCooldown :=
    decide (cooldownMs > 0) &&
      (match t.lastSellAttemptAt with
       | some a => decide (now - a < cooldownMs)
       | none => false)
  if inCooldown then (t, s, traded, removed)
  else
    let t1 := { t with lastSellAttemptAt := some now }
    if cfg.testMode then
      let t2 := { t1 with sellPriceUSD := t1.currentPriceUSD }
      match mode with
      | .all =>
        fullSellSuccess cfg t2
          { s with successfulSells := s.successfulSells + 1 }
          traded "TEST_SELL" now removed
      | .half => ({ t2 with hasSoldHalf := true }, s, traded, removed)
    else
      match outcome with
      | .success tx =>
        let t2 := { t1 with sellPriceUSD := t1.currentPriceUSD }
        match mode with
        | .all =>
          let profit :=
            if t2.buyPriceUSD ≠ 0 then t2.sellPriceUSD - t2.buyPriceUSD else 0
          fullSellSuccess cfg t2
            { s with
                successfulSells := s.successfulSells + 1
                totalTrades := s.totalTrades + 1
                totalProfitUSD := s.totalProfitUSD + profit }
            traded tx now removed
        | .half => ({ t2 with hasSoldHalf := true }, s, traded, removed)
      | .failure _ => (t1, s, traded, removed)

/-! ## Decision loop (checkTradingOpportunities / updateTokenPrice) -/

/-- Which dispatch site of checkTradingOpportunities fired, if any. -/
inductive DispatchTag where
  | buyDispatch
  | sellHalfFirst
  | sellAllSecond
  | sellAllStopLoss
  | sellAllStagnation
deriving DecidableEq, Repr

/-- The buy threshold applicable to a token: the distinct re-entry threshold
(falling back to the base one when unset) once the token has completed a
first re-entry cycle, the base low threshold otherwise. -/
def applicableLowBuy (cfg : TradingConfig) (t : Token) : ℚ :=
  if t.hasCompletedFirstCycle then
    cfg.reentryLowThresholdUSD.getD cfg.lowThresholdUSD
  else cfg.lowThresholdUSD

/-- The canBuy conjunction computed in checkTradingOpportunities. -/
def canBuy (cfg : TradingConfig) (t : Token) : Bool :=
  !t.positionOpen &&
  decide (t.tradeCount < cfg.maxTradesPerCycle.getD 2) &&
  (cfg.reentryEnabled || decide (t.tradeCount = 0)) &&
  decide (t.currentPriceUSD ≥ applicableLowBuy cfg t) &&
  decide (t.currentPriceUSD > t.lastSellPriceUSD)

/-- The peak update at the head of the sell branch: raise the running peak
when the current price makes a new high. -/
def peakUpdated (t : Token) : Token :=
  if t.currentPriceUSD > t.peakPriceSinceLastSell then
    { t with peakPriceSinceLastSell := t.currentPriceUSD }
  else t

/-- First-threshold sell condition: not yet partially sold and price at or
above buy price scaled by the first sell percentage. -/
def firstSellCond (t : Token) : Bool :=
  !t.hasSoldHalf &&
  decide (t.currentPriceUSD ≥ t.buyPriceUSD * (1 + firstSellPercent / 100))

/-- Second-threshold sell condition. -/
def secondSellCond (t : Token) : Bool :=
  decide (t.currentPriceUSD ≥ t.buyPriceUSD * (1 + secondSellPercent / 100))

/-- Stop-loss-from-peak condition. -/
def stopLossCond (t : Token) : Bool :=
  decide (t.currentPriceUSD ≤ t.peakPriceSinceLastSell * (1 - stopLossFromPeakPercent / 100))

/-- Stagnation condition: elapsed seconds since the last significant price
change strictly exceed the stagnation timeout. -/
def stagnationCond (t : Token) (now : ℚ) : Bool :=
  decide ((now - t.lastPriceChange) / 1000 > priceStagnationTimeoutSeconds)

/-- The result of one checkTradingOpportunities evaluation. -/
structure OppResult where
  token : Token
  stats : TradeStats
  traded : List String
  removed : Bool
  dispatched : Option DispatchTag
deriving DecidableEq, Repr

/-- checkTradingOpportunities: the entry branch (optimistically open the
position, then hand off to executeBuy under the buy lock), else the exit
branch (only with an open position and no finalized full sell): update the
peak, then dispatch the first of first-threshold half sell, second-threshold
sell-all, stop-loss, stagnation that holds, each under the sell lock. -/
def checkTradingOpportunities (cfg : TradingConfig) (t : Token) (s : TradeStats)
    (traded : List String) (now : ℚ) (buyLockHeld sellLockHeld : Bool)
    (outcome : TradeOutcome) : OppResult :=
  if canBuy cfg t then
    if buyLockHeld then ⟨t, s, traded, false, none⟩
    else
      let t1 := { t with
        positionOpen := true
        buyPriceUSD := t.currentPriceUSD
        peakPriceSinceLastSell := t.currentPriceUSD
        lastPriceChange := now }
      let r := executeBuy cfg t1 s outcome now
      ⟨r.1, r.2, traded, false, some .buyDispatch⟩
  else if t.positionOpen && t.sellTransactionHash.isNone then
    let t1 := peakUpdated t
    if firstSellCond t1 then
      let t2 := { t1 with hasSoldHalf := true }
      if sellLockHeld then ⟨t2, s, traded, false, some .sellHalfFirst⟩
      else
        let r := executeSell cfg t2 s traded .half outcome now false
        ⟨r.1, r.2.1, r.2.2.1, r.2.2.2, some .sellHalfFirst⟩
    else if secondSellCond t1 then
      if sellLockHeld then ⟨t1, s, traded, false, some .sellAllSecond⟩
      else
        let r := executeSell cfg t1 s traded .all outcome now false
        ⟨r.1, r.2.1, r.2.2.1, r.2.2.2, some .sellAllSecond⟩
    else if stopLossCond t1 then
      if sellLockHeld then ⟨t1, s, traded, false, some .sellAllStopLoss⟩
      else
        let r := executeSell cfg t1 s traded .all outcome now false
        ⟨r.1, r.2.1, r.2.2.1, r.2.2.2, some .sellAllStopLoss⟩
    else if stagnationCond t1 now then
      if sellLockHeld then ⟨t1, s, traded, false, some .sellAllStagnation⟩
      else
        let r := executeSell cfg t1 s traded .all outcome now false
        ⟨r.1, r.2.1, r.2.2.1, r.2.2.2, some .sellAllStagnation⟩
    else ⟨t1, s, traded, false, none⟩
  else ⟨t, s, traded, false, none⟩

/-- The price-update phase of updateTokenPrice: on a failed read leave the
token untouched; on a successful read shift current to previous, record the
new price and the percentage delta, and refresh the two timestamps only when
the absolute delta strictly exceeds the configured noise threshold. -/
def pricePhase (mon : MonitoringConfig) (t : Token) (res : PriceResult) (now : ℚ) :
    Token :=
  match res with
  | .err _ => t
  | .ok q =>
    let currentPriceUSD := q.priceUSD
    let previousPriceUSD := t.currentPriceUSD
    let priceChangePercent :=
      if previousPriceUSD > 0 then
        (currentPriceUSD - previousPriceUSD) / previousPriceUSD * 100
      else 0
    let t1 := { t with
      previousPriceUSD := previousPriceUSD
      currentPriceUSD := currentPriceUSD
      priceChangePercent := priceChangePercent }
    if |priceChangePercent| > mon.priceChangeThreshold then
      { t1 with lastPriceChange := now, lastPriceUpdate := now }
    else t1

/-- Why checkTokenRemoval removed a token, when it did. -/
inductive RemovalReason where
  | inactive
  | postTrade
  | lowPrice
deriving DecidableEq, Repr

/-- checkTokenRemoval: inactivity timeout on the last successful significant
price update, then post-trade exhaustion (fully sold and either re-entry
disabled or the trade cap reached, with the cap defaulting to 1 here), then
the timed low-price removal whose timer resets when the price recovers. -/
def checkTokenRemoval (cfg : TradingConfig) (mon : MonitoringConfig) (t : Token)
    (s : TradeStats) (traded : List String) (now : ℚ) (removed : Bool) :
    Token × TradeStats × List String × Bool × Option RemovalReason :=
  let inactiveTimeMinutes := (now - t.lastPriceUpdate) / (1000 * 60)
  if inactiveTimeMinutes ≥ mon.inactiveTimeoutMinutes then
    let r := removeTokenFromMonitoring t s removed
    (r.1, r.2.1, traded, r.2.2, some .inactive)
  else if t.hasBeenTraded && t.sellTransactionHash.isSome &&
      (!cfg.reentryEnabled || decide (t.tradeCount ≥ cfg.maxTradesPerCycle.getD 1)) then
    let traded1 := tradedInsert t.tokenAddress traded
    let r := removeTokenFromMonitoring t s removed
    (r.1, r.2.1, traded1, r.2.2, some .postTrade)
  else
    match mon.lowPriceRemovalUSD, mon.lowPriceRemovalMinutes with
    | some lowPrice, some lowMinutes =>
      if lowMinutes > 0 then
        if t.currentPriceUSD ≤ lowPrice then
          let t1 :=
            if t.lowPriceSince.isNone then { t with lowPriceSince := some now } else t
          let since := t1.lowPriceSince.getD now
          if (now - since) / (1000 * 60) ≥ lowMinutes then
            let r := removeTokenFromMonitoring t1 s removed
            (r.1, r.2.1, traded, r.2.2, some .lowPrice)
          else (t1, s, traded, removed, none)
        else ({ t with lowPriceSince := none }, s, traded, removed, none)
      else (t, s, traded, removed, none)
    | _, _ => (t, s, traded, removed, none)

/-- The result of one updateTokenPrice tick for one token. -/
structure TickResult where
  token : Token
  stats : TradeStats
  traded : List String
  removed : Bool
  dispatched : Option DispatchTag
  removalReason : Option RemovalReason
deriving DecidableEq, Repr

/-- updateTokenPrice: on a failed read skip straight to removal evaluation
(the finally block); on a successful read run the price phase, then trading
evaluation, then removal evaluation. -/
def updateTokenPrice (cfg : TradingConfig) (mon : MonitoringConfig) (t : Token)
    (s : TradeStats) (traded : List String) (res : PriceResult) (now : ℚ)
    (buyLockHeld sellLockHeld : Bool) (outcome : TradeOutcome) : TickResult :=
  match res with
  | .err _ =>
    let r := checkTokenRemoval cfg mon t s traded now false
    ⟨r.1, r.2.1, r.2.2.1, r.2.2.2.1, none, r.2.2.2.2⟩
  | .ok q =>
    let t1 := pricePhase mon t (.ok q) now
    let o := checkTradingOpportunities cfg t1 s traded now buyLockHeld sellLockHeld outcome
    let r := checkTokenRemoval cfg mon o.token o.stats o.traded now o.removed
    ⟨r.1, r.2.1, r.2.2.1, r.2.2.2.1, o.dispatched, r.2.2.2.2⟩

/-! ## Service-level registry state (discovery and per-token ticks) -/

/-- The shared service state: the monitored-token registry (an association
list keyed by lowercase address), the traded-token set and the statistics. -/
structure ServiceState where
  monitoredTokens : List (String × Token)
  tradedTokens : List String
  tradeStats : TradeStats
deriving DecidableEq, Repr

/-- processNewToken: classify via the pattern matcher, discard when already
monitored, already traded, at the concurrent-token capacity, or when the
initial price read fails; otherwise insert the fresh monitored token. -/
def processNewToken (mon : MonitoringConfig) (patterns : List TradingPattern)
    (st : ServiceState) (tokenCreation : TokenCreation) (priceRead : PriceResult)
    (now : ℚ) : ServiceState :=
  let tokenAddress := jsToLower tokenCreation.tokenAddress
  match matchPattern tokenCreation patterns with
  | none => st
  | some _ =>
    if (st.monitoredTokens.lookup tokenAddress).isSome then st
    else if st.tradedTokens.contains tokenAddress then st
    else if st.monitoredTokens.length ≥ mon.maxConcurrentTokens then st
    else
      match priceRead with
      | .err _ => st
      | .ok q =>
        { st with
            monitoredTokens :=
              (tokenAddress, initialToken tokenCreation q.priceUSD now)
                :: st.monitoredTokens
            tradeStats :=
              { st.tradeStats with
                  tokensMonitored := st.tradeStats.tokensMonitored + 1 } }

/-- One decision-loop tick for one address at the service level: run
updateTokenPrice on the stored token, then write back the updated token (or
delete the entry when the tick removed it) and the updated traded set and
statistics. -/
def serviceTick (cfg : TradingConfig) (mon : MonitoringConfig) (st : ServiceState)
    (addr : String) (res : PriceResult) (now : ℚ) (buyLockHeld sellLockHeld : Bool)
    (outcome : TradeOutcome) : ServiceState :=
  match st.monitoredTokens.lookup addr with
  | none => st
  | some t =>
    let r := updateTokenPrice cfg mon t st.tradeStats st.tradedTokens res now
      buyLockHeld sellLockHeld outcome
    { monitoredTokens :=
        if r.removed then st.monitoredTokens.filter (fun p => !decide (p.1 = addr))
        else st.monitoredTokens.map (fun p => if p.1 = addr then (addr, r.token) else p)
      tradedTokens := r.traded
      tradeStats := r.stats }

/-- A step of the service: a discovery event or a decision-loop tick. -/
inductive ServiceStep where
  | discover (tokenCreation : TokenCreation) (priceRead : PriceResult) (now : ℚ)
  | tick (addr : String) (res : PriceResult) (now : ℚ)
      (buyLockHeld sellLockHeld : Bool) (outcome : TradeOutcome)
deriving Repr

/-- Apply one service step. -/
def applyStep (cfg : TradingConfig) (mon : MonitoringConfig)
    (patterns : List TradingPattern) (st : ServiceState) : ServiceStep → ServiceState
  | .discover tokenCreation priceRead now =>
    processNewToken mon patterns st tokenCreation priceRead now
  | .tick addr res now buyLockHeld sellLockHeld outcome =>
    serviceTick cfg mon st addr res now buyLockHeld sellLockHeld outcome

/-- Apply a sequence of service steps. -/
def runSteps (cfg : TradingConfig) (mon : MonitoringConfig)
    (patterns : List TradingPattern) (st : ServiceState)
    (steps : List ServiceStep) : ServiceState :=
  steps.foldl (applyStep cfg mon patterns) st

/-! ## Concrete fixtures used by the witnesses -/

def cfgW : TradingConfig :=
  { testMode := false
    reentryEnabled := true
    maxTradesPerCycle := some 2
    lowThresholdUSD := 3
    reentryLowThresholdUSD := some 5
    sellCooldownSeconds := 0 }

def monW : MonitoringConfig :=
  { priceChangeThreshold := 1
    inactiveTimeoutMinutes := 10
    lowPriceRemovalUSD := some 1
    lowPriceRemovalMinutes := some 5
    maxConcurrentTokens := 10 }

def statsW : TradeStats := ⟨0, 0, 0, 0, 0, 0⟩

def msgW : String := "submission failed"

def hashW : String := "0xdeadbeef"

def outF : TradeOutcome := .failure msgW

def outS : TradeOutcome := .success hashW

/-- A freshly discovered token at fiat price 5 (integer-valued for kernel
evaluation), eligible to buy under cfgW. -/
def tokW : Token := initialToken evC1 5 0

/-! ## C2: the entry guard -/

/-- Helper: with the buy lock free, the entry dispatch fires exactly when the
canBuy conjunction of checkTradingOpportunities holds. -/
theorem dispatch_eq_buy_iff (cfg : TradingConfig) (t : Token) (s : TradeStats)
    (traded : List String) (now : ℚ) (sellLockHeld : Bool) (outcome : TradeOutcome) :
    (checkTradingOpportunities cfg t s traded now false sellLockHeld outcome).dispatched
        = some .buyDispatch ↔ canBuy cfg t = true := by
  by_cases hb : canBuy cfg t = true
  · simp [checkTradingOpportunities, hb]
  · have hb' : canBuy cfg t = false := by simpa using hb
    refine iff_of_false ?_ (by simp [hb'])
    intro hd
    simp only [checkTradingOpportunities, hb', Bool.false_eq_true, if_false] at hd
    repeat' split at hd
    all_goals simp at hd

/-- Helper: the canBuy conjunction, spelled out. -/
theorem canBuy_iff (cfg : TradingConfig) (t : Token) :
    canBuy cfg t = true ↔
      (t.positionOpen = false ∧
       t.tradeCount < cfg.maxTradesPerCycle.getD 2 ∧
       (cfg.reentryEnabled = true ∨ t.tradeCount = 0) ∧
       applicableLowBuy cfg t ≤ t.currentPriceUSD ∧
       t.lastSellPriceUSD < t.currentPriceUSD) := by
  simp [canBuy, Bool.and_eq_true, Bool.or_eq_true, Bool.not_eq_true',
    decide_eq_true_eq, ge_iff_le, and_assoc]

/-- C2: the decision loop initiates a buy if and only if no position is open,
the trade count is below the per-token cap, re-entry is enabled or this is
the first trade, the current price is at or above the applicable buy
threshold (the distinct re-entry threshold once a first cycle is completed),
and the current price strictly exceeds the last sell price. -/
theorem C2_entry_guard (cfg : TradingConfig) (t : Token) (s : TradeStats)
    (traded : List String) (now : ℚ) (outcome : TradeOutcome) :
    (checkTradingOpportunities cfg t s traded now false false outcome).dispatched
        = some .buyDispatch ↔
      (t.positionOpen = false ∧
       t.tradeCount < cfg.maxTradesPerCycle.getD 2 ∧
       (cfg.reentryEnabled = true ∨ t.tradeCount = 0) ∧
       applicableLowBuy cfg t ≤ t.currentPriceUSD ∧
       t.lastSellPriceUSD < t.currentPriceUSD) :=
  (dispatch_eq_buy_iff cfg t s traded now false outcome).trans (canBuy_iff cfg t)

/-- Witness for C2_entry_guard: the fresh token tokW at price 5 fires
the entry dispatch under cfgW. -/
theorem C2_entry_guard_witness :
    (checkTradingOpportunities cfgW tokW statsW [] 0 false false outF).dispatched
      = some .buyDispatch :=
  (C2_entry_guard cfgW tokW statsW [] 0 outF).mpr (by decide)

/-! ## C7: buy failure rollback -/

/-- C7: when the caller has optimistically opened the position and the token
is under the trade cap, a failed or throwing delegated buy rolls the
position-open flag back to closed and leaves the successful-buy counter
unchanged, while a successful buy leaves the flag open and increments the
counter. -/
theorem C7_buy_rollback (cfg : TradingConfig) (t : Token) (s : TradeStats)
    (now : ℚ) (e tx : String)
    (hTest : cfg.testMode = false)
    (hCap : t.tradeCount < cfg.maxTradesPerCycle.getD 2)
    (hOpen : t.positionOpen = true) :
    (executeBuy cfg t s (.failure e) now).1.positionOpen = false ∧
    (executeBuy cfg t s (.failure e) now).2.successfulBuys = s.successfulBuys ∧
    (executeBuy cfg t s (.success tx) now).1.positionOpen = true ∧
    (executeBuy cfg t s (.success tx) now).2.successfulBuys = s.successfulBuys + 1 := by
  have hnot : ¬ t.tradeCount ≥ cfg.maxTradesPerCycle.getD 2 := Nat.not_le.mpr hCap
  simp [executeBuy, hTest, hnot, buySuccessState, hOpen]

/-- Witness for C7_buy_rollback at the concrete open-position token. -/
theorem C7_buy_rollback_witness :
    ((executeBuy cfgW { tokW with positionOpen := true } statsW (.failure msgW) 0).1.positionOpen
        = false) ∧
    (executeBuy cfgW { tokW with positionOpen := true } statsW (.failure msgW) 0).2.successfulBuys
        = statsW.successfulBuys ∧
    (executeBuy cfgW { tokW with positionOpen := true } statsW (.success hashW) 0).1.positionOpen
        = true ∧
    (executeBuy cfgW { tokW with positionOpen := true } statsW (.success hashW) 0).2.successfulBuys
        = statsW.successfulBuys + 1 :=
  C7_buy_rollback cfgW { tokW with positionOpen := true } statsW 0 msgW hashW
    rfl (by decide) rfl

/-! ## C3: fixed exit-evaluation order -/

/-- C3: with an open position and no finalized full sell, one evaluation
dispatches at most one sell, chosen as the first true condition in the fixed
order first-threshold half sell, second-threshold sell-all, stop-loss from
peak, stagnation; in particular a token eligible for both the
second-threshold sell and the stop-loss (and not for the half sell) fires
the second-threshold sell. -/
theorem C3_exit_priority (cfg : TradingConfig) (t : Token) (s : TradeStats)
    (traded : List String) (now : ℚ) (outcome : TradeOutcome)
    (hOpen : t.positionOpen = true) (hNoSell : t.sellTransactionHash = none) :
    ((checkTradingOpportunities cfg t s traded now false false outcome).dispatched =
        some .sellHalfFirst ↔ firstSellCond (peakUpdated t) = true) ∧
    ((checkTradingOpportunities cfg t s traded now false false outcome).dispatched =
        some .sellAllSecond ↔
      (firstSellCond (peakUpdated t) = false ∧ secondSellCond (peakUpdated t) = true)) ∧
    ((checkTradingOpportunities cfg t s traded now false false outcome).dispatched =
        some .sellAllStopLoss ↔
      (firstSellCond (peakUpdated t) = false ∧ secondSellCond (peakUpdated t) = false ∧
       stopLossCond (peakUpdated t) = true)) ∧
    ((checkTradingOpportunities cfg t s traded now false false outcome).dispatched =
        some .sellAllStagnation ↔
      (firstSellCond (peakUpdated t) = false ∧ secondSellCond (peakUpdated t) = false ∧
       stopLossCond (peakUpdated t) = false ∧ stagnationCond (peakUpdated t) now = true)) ∧
    ((checkTradingOpportunities cfg t s traded now false false outcome).dispatched = none ↔
      (firstSellCond (peakUpdated t) = false ∧ secondSellCond (peakUpdated t) = false ∧
       stopLossCond (peakUpdated t) = false ∧ stagnationCond (peakUpdated t) now = false)) ∧
    (secondSellCond (peakUpdated t) = true → stopLossCond (peakUpdated t) = true →
     firstSellCond (peakUpdated t) = false →
     (checkTradingOpportunities cfg t s traded now false false outcome).dispatched =
        some .sellAllSecond) := by
  have hcb : canBuy cfg t = false := by simp [canBuy, hOpen]
  have hos : (t.positionOpen && t.sellTransactionHash.isNone) = true := by
    simp [hOpen, hNoSell]
  by_cases h1 : firstSellCond (peakUpdated t) = true <;>
    by_cases h2 : secondSellCond (peakUpdated t) = true <;>
      by_cases h3 : stopLossCond (peakUpdated t) = true <;>
        by_cases h4 : stagnationCond (peakUpdated t) now = true <;>
          simp [checkTradingOpportunities, hcb, hos, h1, h2, h3, h4]

/-- A token with an open position bought at 4, peak 10, current price 8,
already half-sold: eligible for both the second-threshold sell (8 ≥ 6) and
the stop-loss from peak (8 ≤ 8.5). -/
def tokC3 : Token :=
  { tokW with
      positionOpen := true
      buyPriceUSD := 4
      peakPriceSinceLastSell := 10
      currentPriceUSD := 8
      hasSoldHalf := true }

/-- Witness for C3_exit_priority: tokC3 is simultaneously eligible for the
second-threshold sell and the stop-loss, and the evaluation dispatches the
second-threshold sell. -/
theorem C3_exit_priority_witness :
    secondSellCond (peakUpdated tokC3) = true ∧
    stopLossCond (peakUpdated tokC3) = true ∧
    firstSellCond (peakUpdated tokC3) = false ∧
    (checkTradingOpportunities cfgW tokC3 statsW [] 0 false false outS).dispatched =
      some .sellAllSecond := by
  have hpk : peakUpdated tokC3 = tokC3 := by
    simp [peakUpdated, tokC3, tokW, initialToken]
    norm_num
  have h2 : secondSellCond (peakUpdated tokC3) = true := by
    rw [hpk]
    simp only [secondSellCond, tokC3, tokW, initialToken, secondSellPercent,
      decide_eq_true_eq]
    norm_num
  have h3 : stopLossCond (peakUpdated tokC3) = true := by
    rw [hpk]
    simp only [stopLossCond, tokC3, tokW, initialToken, stopLossFromPeakPercent,
      decide_eq_true_eq]
    norm_num
  have h1 : firstSellCond (peakUpdated tokC3) = false := by
    rw [hpk]
    simp [firstSellCond, tokC3, tokW, initialToken]
  exact ⟨h2, h3, h1,
    (C3_exit_priority cfgW tokC3 statsW [] 0 outS rfl rfl).2.2.2.2.2 h2 h3 h1⟩

/-! ## C8: frame effects of the price-update tick -/

/-- Helper: the token produced by removal evaluation is the input token with
at most the isActive and lowPriceSince fields changed. -/
theorem checkTokenRemoval_token_shape (cfg : TradingConfig) (mon : MonitoringConfig)
    (t : Token) (s : TradeStats) (traded : List String) (now : ℚ) (removed : Bool) :
    ∃ b o, (checkTokenRemoval cfg mon t s traded now removed).1 =
      { t with isActive := b, lowPriceSince := o } := by
  simp only [checkTokenRemoval, removeTokenFromMonitoring]
  repeat' split
  all_goals exact ⟨_, _, rfl⟩

/-- Helper: removal evaluation changes at most the isActive and lowPriceSince
fields of the token; every other field is preserved. -/
theorem checkTokenRemoval_token_fields (cfg : TradingConfig) (mon : MonitoringConfig)
    (t : Token) (s : TradeStats) (traded : List String) (now : ℚ) (removed : Bool) :
    (checkTokenRemoval cfg mon t s traded now removed).1.currentPriceUSD = t.currentPriceUSD ∧
    (checkTokenRemoval cfg mon t s traded now removed).1.previousPriceUSD = t.previousPriceUSD ∧
    (checkTokenRemoval cfg mon t s traded now removed).1.priceChangePercent = t.priceChangePercent ∧
    (checkTokenRemoval cfg mon t s traded now removed).1.positionOpen = t.positionOpen ∧
    (checkTokenRemoval cfg mon t s traded now removed).1.buyPriceUSD = t.buyPriceUSD ∧
    (checkTokenRemoval cfg mon t s traded now removed).1.peakPriceSinceLastSell = t.peakPriceSinceLastSell ∧
    (checkTokenRemoval cfg mon t s traded now removed).1.hasSoldHalf = t.hasSoldHalf ∧
    (checkTokenRemoval cfg mon t s traded now removed).1.lastSellPriceUSD = t.lastSellPriceUSD ∧
    (checkTokenRemoval cfg mon t s traded now removed).1.tradeCount = t.tradeCount ∧
    (checkTokenRemoval cfg mon t s traded now removed).1.hasCompletedFirstCycle = t.hasCompletedFirstCycle ∧
    (checkTokenRemoval cfg mon t s traded now removed).1.lastPriceChange = t.lastPriceChange ∧
    (checkTokenRemoval cfg mon t s traded now removed).1.lastPriceUpdate = t.lastPriceUpdate ∧
    (checkTokenRemoval cfg mon t s traded now removed).1.sellTransactionHash = t.sellTransactionHash ∧
    (checkTokenRemoval cfg mon t s traded now removed).1.hasBeenTraded = t.hasBeenTraded ∧
    (checkTokenRemoval cfg mon t s traded now removed).1.tokenAddress = t.tokenAddress := by
  obtain ⟨b, o, h⟩ := checkTokenRemoval_token_shape cfg mon t s traded now removed
  rw [h]
  simp

/-- C8: when the price read fails, the tick leaves the current price, the
previous price and the price-change percent unchanged and still performs
removal evaluation; when the read succeeds, the price-update phase shifts
current to previous, records the new price and the derived delta, and
refreshes the two timestamps exactly when the absolute delta strictly
exceeds the configured noise threshold. -/
theorem C8_price_frame (cfg : TradingConfig) (mon : MonitoringConfig) (t : Token)
    (s : TradeStats) (traded : List String) (now : ℚ) (bL sL : Bool)
    (outcome : TradeOutcome) :
    (∀ e,
      (updateTokenPrice cfg mon t s traded (.err e) now bL sL outcome).token.currentPriceUSD
          = t.currentPriceUSD ∧
      (updateTokenPrice cfg mon t s traded (.err e) now bL sL outcome).token.previousPriceUSD
          = t.previousPriceUSD ∧
      (updateTokenPrice cfg mon t s traded (.err e) now bL sL outcome).token.priceChangePercent
          = t.priceChangePercent ∧
      (updateTokenPrice cfg mon t s traded (.err e) now bL sL outcome).removalReason
          = (checkTokenRemoval cfg mon t s traded now false).2.2.2.2) ∧
    (∀ q : PriceQuote,
      (pricePhase mon t (.ok q) now).currentPriceUSD = q.priceUSD ∧
      (pricePhase mon t (.ok q) now).previousPriceUSD = t.currentPriceUSD ∧
      (pricePhase mon t (.ok q) now).priceChangePercent =
        (if t.currentPriceUSD > 0
         then (q.priceUSD - t.currentPriceUSD) / t.currentPriceUSD * 100 else 0) ∧
      (|(pricePhase mon t (.ok q) now).priceChangePercent| > mon.priceChangeThreshold →
        (pricePhase mon t (.ok q) now).lastPriceChange = now ∧
        (pricePhase mon t (.ok q) now).lastPriceUpdate = now) ∧
      (¬ |(pricePhase mon t (.ok q) now).priceChangePercent| > mon.priceChangeThreshold →
        (pricePhase mon t (.ok q) now).lastPriceChange = t.lastPriceChange ∧
        (pricePhase mon t (.ok q) now).lastPriceUpdate = t.lastPriceUpdate)) := by
  constructor
  · intro e
    have hf := checkTokenRemoval_token_fields cfg mon t s traded now false
    exact ⟨hf.1, hf.2.1, hf.2.2.1, rfl⟩
  · intro q
    by_cases h : |(if t.currentPriceUSD > 0
        then (q.priceUSD - t.currentPriceUSD) / t.currentPriceUSD * 100 else 0)|
          > mon.priceChangeThreshold
    · simp only [pricePhase]
      simp [h]
    · simp only [pricePhase]
      simp [h]

/-- Witness for C8_price_frame: a failed read at the concrete token keeps
the price, and a successful read at 7 (previous 5, delta 40 percent above
the threshold 1) refreshes the change timestamp. -/
theorem C8_price_frame_witness :
    (updateTokenPrice cfgW monW tokW statsW [] (.err msgW) 5 false false outF).token.currentPriceUSD
        = tokW.currentPriceUSD ∧
    (pricePhase monW tokW (.ok ⟨1, 7⟩) 5).currentPriceUSD = 7 ∧
    (pricePhase monW tokW (.ok ⟨1, 7⟩) 5).lastPriceChange = 5 := by
  have h := C8_price_frame cfgW monW tokW statsW [] 5 false false outF
  refine ⟨(h.1 msgW).1, (h.2 ⟨1, 7⟩).1, ((h.2 ⟨1, 7⟩).2.2.2.1 ?_).1⟩
  have hd : (pricePhase monW tokW (.ok ⟨1, 7⟩) 5).priceChangePercent =
      (if tokW.currentPriceUSD > 0
       then ((7 : ℚ) - tokW.currentPriceUSD) / tokW.currentPriceUSD * 100 else 0) :=
    (h.2 ⟨1, 7⟩).2.2.1
  rw [hd]
  have hcur : tokW.currentPriceUSD = 5 := rfl
  rw [hcur]
  norm_num [monW]

/-! ## C9: price validation and failure purity -/

/-- C9: the price reader fails on a non-positive reported last price, every
successful result lies in the plausible fiat band, and a failed read leaves
the token record untouched in the price phase and leaves all trading fields
of the token unchanged across the whole tick. -/
theorem C9_price_validation (tokenAddress : String) (info : TokenInfoData)
    (bnb : ℚ) (warned : List String) (cfg : TradingConfig) (mon : MonitoringConfig)
    (t : Token) (s : TradeStats) (traded : List String) (now : ℚ)
    (bL sL : Bool) (outcome : TradeOutcome) :
    (info.lastPrice ≤ 0 →
      (getTokenPrice tokenAddress info bnb warned).1 = .err errNoLiquidity) ∧
    (∀ q, (getTokenPrice tokenAddress info bnb warned).1 = .ok q →
      bandLo ≤ q.priceUSD ∧ q.priceUSD ≤ 1) ∧
    (∀ msg, pricePhase mon t (.err msg) now = t) ∧
    (∀ msg,
      (updateTokenPrice cfg mon t s traded (.err msg) now bL sL outcome).token.positionOpen
          = t.positionOpen ∧
      (updateTokenPrice cfg mon t s traded (.err msg) now bL sL outcome).token.buyPriceUSD
          = t.buyPriceUSD ∧
      (updateTokenPrice cfg mon t s traded (.err msg) now bL sL outcome).token.peakPriceSinceLastSell
          = t.peakPriceSinceLastSell ∧
      (updateTokenPrice cfg mon t s traded (.err msg) now bL sL outcome).token.lastSellPriceUSD
          = t.lastSellPriceUSD ∧
      (updateTokenPrice cfg mon t s traded (.err msg) now bL sL outcome).token.tradeCount
          = t.tradeCount ∧
      (updateTokenPrice cfg mon t s traded (.err msg) now bL sL outcome).token.hasSoldHalf
          = t.hasSoldHalf ∧
      (updateTokenPrice cfg mon t s traded (.err msg) now bL sL outcome).dispatched = none) := by
  refine ⟨?_, ?_, fun _ => rfl, ?_⟩
  · intro h
    simp [getTokenPrice, not_lt.mpr h]
  · intro q hq
    by_cases hp : info.lastPrice > 0
    · simp only [getTokenPrice, if_pos hp] at hq
      repeat' split at hq
      all_goals simp at hq
      all_goals subst hq
      all_goals simp_all
    · rw [getTokenPrice, if_neg hp] at hq
      simp at hq
  · intro msg
    have hf := checkTokenRemoval_token_fields cfg mon t s traded now false
    exact ⟨hf.2.2.2.1, hf.2.2.2.2.1, hf.2.2.2.2.2.1, hf.2.2.2.2.2.2.2.1,
      hf.2.2.2.2.2.2.2.2.1, hf.2.2.2.2.2.2.1, rfl⟩

def infoZeroW : TokenInfoData := ⟨WBNB_ADDRESS, 0⟩

def infoOkW : TokenInfoData := ⟨WBNB_ADDRESS, 10 ^ 18⟩

def pqW : PriceQuote := ⟨10 ^ 18 / e18, 10 ^ 18 / e18 * 1⟩

/-- Witness for C9_price_validation: a zero last price fails with the
no-liquidity error, a concrete successful WBNB-quoted read lies in the band,
and a failed read leaves the concrete token unchanged. -/
theorem C9_price_validation_witness :
    (getTokenPrice hashW infoZeroW 1000 []).1 = .err errNoLiquidity ∧
    (bandLo ≤ pqW.priceUSD ∧ pqW.priceUSD ≤ 1) ∧
    pricePhase monW tokW (.err msgW) 0 = tokW ∧
    (updateTokenPrice cfgW monW tokW statsW [] (.err msgW) 0 false false outF).token.positionOpen
      = tokW.positionOpen := by
  have h := C9_price_validation hashW infoZeroW 1000 [] cfgW monW tokW statsW [] 0
    false false outF
  have h2 := C9_price_validation hashW infoOkW 1 [] cfgW monW tokW statsW [] 0
    false false outF
  have hok : (getTokenPrice hashW infoOkW 1 []).1 = .ok pqW := by
    simp only [getTokenPrice, infoOkW, pqW]
    norm_num [e18, bandLo]
  exact ⟨h.1 (by norm_num [infoZeroW]), h2.2.1 pqW hok, h.2.2.1 msgW,
    (h.2.2.2 msgW).1⟩

/-! ## C10: unknown-quote heuristic and the once-per-token warning -/

/-- The number of unknown-quote warnings logged for one token address over a
sequence of price reads (each entry: token info and BNB price), threading
the warned set exactly as the service does. -/
def warnCountFor (tokenAddress : String) :
    List (TokenInfoData × ℚ) → List String → Nat
  | [], _ => 0
  | c :: rest, warned =>
    let r := getTokenPrice tokenAddress c.1 c.2 warned
    (if r.2.2 then 1 else 0) + warnCountFor tokenAddress rest r.2.1

/-- Helper: the warned set only grows during a price read. -/
theorem getTokenPrice_warned_mono (tokenAddress a : String) (info : TokenInfoData)
    (bnb : ℚ) (warned : List String) (h : a ∈ warned) :
    a ∈ (getTokenPrice tokenAddress info bnb warned).2.1 := by
  simp only [getTokenPrice]
  repeat' split
  all_goals simp_all

/-- Helper: a warning is logged only with the address recorded afterwards. -/
theorem getTokenPrice_warn_mem (tokenAddress : String) (info : TokenInfoData)
    (bnb : ℚ) (warned : List String)
    (h : (getTokenPrice tokenAddress info bnb warned).2.2 = true) :
    jsToLower tokenAddress ∈ (getTokenPrice tokenAddress info bnb warned).2.1 := by
  simp only [getTokenPrice] at h ⊢
  repeat' (first | split at h | split)
  all_goals simp_all

/-- Helper: no warning is logged for an address already in the warned set. -/
theorem getTokenPrice_no_rewarn (tokenAddress : String) (info : TokenInfoData)
    (bnb : ℚ) (warned : List String) (h : jsToLower tokenAddress ∈ warned) :
    (getTokenPrice tokenAddress info bnb warned).2.2 = false := by
  simp only [getTokenPrice]
  repeat' split
  all_goals simp_all

/-- Helper: once the address is in the warned set, no further warnings. -/
theorem warnCountFor_zero (tokenAddress : String)
    (calls : List (TokenInfoData × ℚ)) (warned : List String)
    (h : jsToLower tokenAddress ∈ warned) :
    warnCountFor tokenAddress calls warned = 0 := by
  induction calls generalizing warned with
  | nil => rfl
  | cons c rest ih =>
    simp only [warnCountFor]
    rw [getTokenPrice_no_rewarn tokenAddress c.1 c.2 warned h,
      ih _ (getTokenPrice_warned_mono tokenAddress _ c.1 c.2 warned h)]
    simp

/-- C10: for an unrecognized quote asset with positive last price, a
successful read converts to fiat only when the BNB-denominated price is
strictly below the cutoff and otherwise returns the BNB number unchanged as
the fiat price; and over any sequence of reads the unknown-quote warning is
logged at most once per token address. -/
theorem C10_unknown_quote (tokenAddress : String) (info : TokenInfoData)
    (bnb : ℚ) (warned : List String)
    (hw : jsToLower info.quote ≠ jsToLower WBNB_ADDRESS)
    (hs : jsToLower info.quote ∉ BSC_STABLES)
    (hp : 0 < info.lastPrice) :
    (∀ q, (getTokenPrice tokenAddress info bnb warned).1 = .ok q →
      q.priceBNB = info.lastPrice / e18 ∧
      q.priceUSD =
        (if info.lastPrice / e18 < smallBNBCutoff
         then info.lastPrice / e18 * bnb else info.lastPrice / e18)) ∧
    ((getTokenPrice tokenAddress info bnb warned).2.2 = true ↔
      warned.contains (jsToLower tokenAddress) = false) ∧
    (∀ calls warned0, warnCountFor tokenAddress calls warned0 ≤ 1) := by
  have hsc : BSC_STABLES.contains (jsToLower info.quote) = false := by
    simpa using hs
  refine ⟨?_, ?_, ?_⟩
  · intro q hq
    simp only [getTokenPrice, if_pos hp, if_neg hw, hsc, Bool.false_eq_true,
      if_false] at hq
    repeat' split at hq
    all_goals simp at hq
    all_goals subst hq
    all_goals simp_all
    all_goals rw [if_neg (not_lt.mpr (by assumption))]
  · simp only [getTokenPrice, if_pos hp, if_neg hw, hsc, Bool.false_eq_true,
      if_false]
    repeat' split
    all_goals simp
  · intro calls warned0
    induction calls generalizing warned0 with
    | nil => simp [warnCountFor]
    | cons c rest ih =>
      simp only [warnCountFor]
      by_cases hflag : (getTokenPrice tokenAddress c.1 c.2 warned0).2.2 = true
      · rw [if_pos hflag]
        rw [warnCountFor_zero tokenAddress rest _
          (getTokenPrice_warn_mem tokenAddress c.1 c.2 warned0 hflag)]
      · rw [if_neg hflag]
        simpa using ih ((getTokenPrice tokenAddress c.1 c.2 warned0).2.1)

def infoUnknownW : TokenInfoData := ⟨hashW, 10 ^ 18⟩

/-- Witness for C10_unknown_quote: a concrete unknown-quote token info with
last price 10^18 (one BNB-denominated unit, above the cutoff) with an empty
warned set. -/
theorem C10_unknown_quote_witness :
    ((getTokenPrice msgW infoUnknownW 1 []).2.2 = true ↔
      List.contains ([] : List String) (jsToLower msgW) = false) ∧
    warnCountFor msgW [(infoUnknownW, 1)] [] ≤ 1 :=
  ⟨(C10_unknown_quote msgW infoUnknownW 1 [] (by decide) (by decide)
      (by norm_num [infoUnknownW])).2.1,
   (C10_unknown_quote msgW infoUnknownW 1 [] (by decide) (by decide)
      (by norm_num [infoUnknownW])).2.2 [(infoUnknownW, 1)] []⟩

/-! ## C4: position invariant and peak behaviour -/

/-- The position invariant of the spec: an open position has a strictly
positive recorded buy price and a peak at or above it; auxiliary clauses
record that observed prices are positive and the last sell price is
non-negative, which the transitions maintain. -/
def tokenInv (t : Token) : Prop :=
  0 < t.currentPriceUSD ∧ 0 ≤ t.lastSellPriceUSD ∧
  (t.positionOpen = true →
    0 < t.buyPriceUSD ∧ t.buyPriceUSD ≤ t.peakPriceSinceLastSell)

/-- Helper: executeBuy preserves the position invariant. -/
theorem executeBuy_inv (cfg : TradingConfig) (t : Token) (s : TradeStats)
    (outcome : TradeOutcome) (now : ℚ) (h : tokenInv t) :
    tokenInv (executeBuy cfg t s outcome now).1 := by
  obtain ⟨h1, h2, h3⟩ := h
  have h1le := h1.le
  simp only [executeBuy, buySuccessState]
  repeat' split
  all_goals exact ⟨h1, h2, by simp_all⟩

/-- Helper: executeSell preserves the position invariant. -/
theorem executeSell_inv (cfg : TradingConfig) (t : Token) (s : TradeStats)
    (traded : List String) (mode : SellMode) (outcome : TradeOutcome) (now : ℚ)
    (removed : Bool) (h : tokenInv t) :
    tokenInv (executeSell cfg t s traded mode outcome now removed).1 := by
  obtain ⟨h1, h2, h3⟩ := h
  have h1le := h1.le
  simp only [executeSell, fullSellSuccess, removeTokenFromMonitoring]
  repeat' split
  all_goals exact ⟨h1, by simp_all, by simp_all⟩

/-- Helper: the peak update preserves the position invariant. -/
theorem peakUpdated_inv (t : Token) (h : tokenInv t) : tokenInv (peakUpdated t) := by
  obtain ⟨h1, h2, h3⟩ := h
  unfold peakUpdated
  split
  · rename_i hgt
    refine ⟨h1, h2, fun ho => ?_⟩
    obtain ⟨hb, hp⟩ := h3 ho
    exact ⟨hb, le_trans hp hgt.le⟩
  · exact ⟨h1, h2, h3⟩

/-- Helper: the peak update never lowers the peak. -/
theorem peakUpdated_peak_le (t : Token) :
    t.peakPriceSinceLastSell ≤ (peakUpdated t).peakPriceSinceLastSell := by
  unfold peakUpdated
  split
  · rename_i hgt
    exact hgt.le
  · exact le_refl _

/-- Helper: trading evaluation preserves the position invariant. -/
theorem checkTradingOpportunities_inv (cfg : TradingConfig) (t : Token)
    (s : TradeStats) (traded : List String) (now : ℚ) (bL sL : Bool)
    (outcome : TradeOutcome) (h : tokenInv t) :
    tokenInv (checkTradingOpportunities cfg t s traded now bL sL outcome).token := by
  obtain ⟨h1, h2, h3⟩ := h
  have hpk := peakUpdated_inv t ⟨h1, h2, h3⟩
  simp only [checkTradingOpportunities]
  split
  · split
    · exact ⟨h1, h2, h3⟩
    · exact executeBuy_inv cfg _ s outcome now ⟨h1, h2, fun _ => ⟨h1, le_refl _⟩⟩
  · split
    · split
      · have ht2 : tokenInv { peakUpdated t with hasSoldHalf := true } :=
          ⟨hpk.1, hpk.2.1, hpk.2.2⟩
        split
        · exact ht2
        · exact executeSell_inv cfg _ s traded .half outcome now false ht2
      · split
        · split
          · exact hpk
          · exact executeSell_inv cfg _ s traded .all outcome now false hpk
        · split
          · split
            · exact hpk
            · exact executeSell_inv cfg _ s traded .all outcome now false hpk
          · split
            · split
              · exact hpk
              · exact executeSell_inv cfg _ s traded .all outcome now false hpk
            · exact hpk
    · exact ⟨h1, h2, h3⟩

/-- Helper: the price phase preserves the invariant when a successful read
reports a positive price. -/
theorem pricePhase_inv (mon : MonitoringConfig) (t : Token) (res : PriceResult)
    (now : ℚ) (h : tokenInv t)
    (hres : ∀ q, res = PriceResult.ok q → 0 < q.priceUSD) :
    tokenInv (pricePhase mon t res now) := by
  obtain ⟨h1, h2, h3⟩ := h
  cases res with
  | err e => exact ⟨h1, h2, h3⟩
  | ok q =>
    have hq := hres q rfl
    simp only [pricePhase]
    repeat' split
    all_goals exact ⟨hq, h2, h3⟩

/-- Helper: removal evaluation preserves the invariant. -/
theorem checkTokenRemoval_inv (cfg : TradingConfig) (mon : MonitoringConfig)
    (t : Token) (s : TradeStats) (traded : List String) (now : ℚ)
    (removed : Bool) (h : tokenInv t) :
    tokenInv (checkTokenRemoval cfg mon t s traded now removed).1 := by
  obtain ⟨b, o, hsh⟩ := checkTokenRemoval_token_shape cfg mon t s traded now removed
  rw [hsh]
  exact h

/-- Helper: the price phase leaves the trading fields unchanged. -/
theorem pricePhase_frame (mon : MonitoringConfig) (t : Token) (res : PriceResult)
    (now : ℚ) :
    (pricePhase mon t res now).peakPriceSinceLastSell = t.peakPriceSinceLastSell ∧
    (pricePhase mon t res now).positionOpen = t.positionOpen ∧
    (pricePhase mon t res now).buyPriceUSD = t.buyPriceUSD ∧
    (pricePhase mon t res now).lastSellPriceUSD = t.lastSellPriceUSD ∧
    (pricePhase mon t res now).tradeCount = t.tradeCount ∧
    (pricePhase mon t res now).hasSoldHalf = t.hasSoldHalf ∧
    (pricePhase mon t res now).sellTransactionHash = t.sellTransactionHash ∧
    (pricePhase mon t res now).hasBeenTraded = t.hasBeenTraded := by
  cases res <;> simp only [pricePhase] <;> repeat' split
  all_goals simp

/-- Helper: if a sell leaves the position open, it was open before and the
peak is unchanged. -/
theorem executeSell_open_peak (cfg : TradingConfig) (t : Token) (s : TradeStats)
    (traded : List String) (mode : SellMode) (outcome : TradeOutcome) (now : ℚ)
    (removed : Bool) :
    (executeSell cfg t s traded mode outcome now removed).1.positionOpen = true →
      (executeSell cfg t s traded mode outcome now removed).1.positionOpen
          = t.positionOpen ∧
      (executeSell cfg t s traded mode outcome now removed).1.peakPriceSinceLastSell
          = t.peakPriceSinceLastSell := by
  simp only [executeSell, fullSellSuccess, removeTokenFromMonitoring]
  repeat' split
  all_goals simp_all

/-- Helper: while the position stays open across one trading evaluation, the
peak never decreases. -/
theorem checkTradingOpportunities_peak_mono (cfg : TradingConfig) (t : Token)
    (s : TradeStats) (traded : List String) (now : ℚ) (bL sL : Bool)
    (outcome : TradeOutcome) (ho : t.positionOpen = true) :
    (checkTradingOpportunities cfg t s traded now bL sL outcome).token.positionOpen
        = true →
    t.peakPriceSinceLastSell ≤
      (checkTradingOpportunities cfg t s traded now bL sL outcome).token.peakPriceSinceLastSell := by
  have hcb : canBuy cfg t = false := by simp [canBuy, ho]
  have hple := peakUpdated_peak_le t
  simp only [checkTradingOpportunities, hcb, Bool.false_eq_true, if_false]
  split
  · split
    · split
      · intro _
        exact hple
      · intro h2
        have hop := executeSell_open_peak cfg _ s traded .half outcome now false h2
        rw [hop.2]
        exact hple
    · split
      · split
        · intro _
          exact hple
        · intro h2
          have hop := executeSell_open_peak cfg _ s traded .all outcome now false h2
          rw [hop.2]
          exact hple
      · split
        · split
          · intro _
            exact hple
          · intro h2
            have hop := executeSell_open_peak cfg _ s traded .all outcome now false h2
            rw [hop.2]
            exact hple
        · split
          · split
            · intro _
              exact hple
            · intro h2
              have hop := executeSell_open_peak cfg _ s traded .all outcome now false h2
              rw [hop.2]
              exact hple
          · intro _
            exact hple
  · intro _
    exact le_refl _

/-- Helper: when the caller has set buy price and peak to the current price,
executeBuy leaves peak equal to the buy price whenever the position ends
open. -/
theorem executeBuy_entry_reset (cfg : TradingConfig) (t : Token) (s : TradeStats)
    (outcome : TradeOutcome) (now : ℚ)
    (hbp : t.buyPriceUSD = t.currentPriceUSD)
    (hpk : t.peakPriceSinceLastSell = t.currentPriceUSD) :
    (executeBuy cfg t s outcome now).1.positionOpen = true →
    (executeBuy cfg t s outcome now).1.peakPriceSinceLastSell
      = (executeBuy cfg t s outcome now).1.buyPriceUSD := by
  simp only [executeBuy, buySuccessState]
  repeat' split
  all_goals simp_all

/-- Helper: a buy dispatch that leaves the position open leaves the peak
reset to the recorded buy price. -/
theorem checkTradingOpportunities_entry_reset (cfg : TradingConfig) (t : Token)
    (s : TradeStats) (traded : List String) (now : ℚ) (bL sL : Bool)
    (outcome : TradeOutcome) :
    (checkTradingOpportunities cfg t s traded now bL sL outcome).dispatched
        = some .buyDispatch →
    (checkTradingOpportunities cfg t s traded now bL sL outcome).token.positionOpen
        = true →
    (checkTradingOpportunities cfg t s traded now bL sL outcome).token.peakPriceSinceLastSell
      = (checkTradingOpportunities cfg t s traded now bL sL outcome).token.buyPriceUSD := by
  simp only [checkTradingOpportunities]
  split
  · split
    · simp
    · intro _ ho
      exact executeBuy_entry_reset cfg _ s outcome now rfl rfl ho
  · split
    · repeat' split
      all_goals simp
    · simp

/-- Helper: a general buy dispatch implies the canBuy conjunction held. -/
theorem dispatch_buy_canBuy (cfg : TradingConfig) (t : Token) (s : TradeStats)
    (traded : List String) (now : ℚ) (bL sL : Bool) (outcome : TradeOutcome)
    (hd : (checkTradingOpportunities cfg t s traded now bL sL outcome).dispatched
        = some .buyDispatch) :
    canBuy cfg t = true := by
  by_cases hb : canBuy cfg t = true
  · exact hb
  · exfalso
    have hb' : canBuy cfg t = false := by simpa using hb
    simp only [checkTradingOpportunities, hb', Bool.false_eq_true, if_false] at hd
    repeat' split at hd
    all_goals simp at hd

/-- C4: the position invariant is preserved by every decision-loop tick for
any read outcome with a positive reported price; while the position stays
open across the tick the peak never decreases; and an entry dispatch that
leaves the position open resets the peak to the recorded buy price. -/
theorem C4_position_invariant (cfg : TradingConfig) (mon : MonitoringConfig)
    (t : Token) (s : TradeStats) (traded : List String) (res : PriceResult)
    (now : ℚ) (bL sL : Bool) (outcome : TradeOutcome)
    (hinv : tokenInv t)
    (hres : ∀ q, res = PriceResult.ok q → 0 < q.priceUSD) :
    tokenInv (updateTokenPrice cfg mon t s traded res now bL sL outcome).token ∧
    (t.positionOpen = true →
      (updateTokenPrice cfg mon t s traded res now bL sL outcome).token.positionOpen = true →
      t.peakPriceSinceLastSell ≤
        (updateTokenPrice cfg mon t s traded res now bL sL outcome).token.peakPriceSinceLastSell) ∧
    ((updateTokenPrice cfg mon t s traded res now bL sL outcome).dispatched
        = some .buyDispatch →
      (updateTokenPrice cfg mon t s traded res now bL sL outcome).token.positionOpen = true →
      (updateTokenPrice cfg mon t s traded res now bL sL outcome).token.peakPriceSinceLastSell
        = (updateTokenPrice cfg mon t s traded res now bL sL outcome).token.buyPriceUSD) := by
  refine ⟨?_, ?_, ?_⟩
  · cases res with
    | err e => exact checkTokenRemoval_inv cfg mon t s traded now false hinv
    | ok q =>
      exact checkTokenRemoval_inv cfg mon _ _ _ now _
        (checkTradingOpportunities_inv cfg _ s traded now bL sL outcome
          (pricePhase_inv mon t (.ok q) now hinv (fun q2 h2 => by
            cases h2
            exact hres _ rfl)))
  · intro ho ho2
    cases res with
    | err e =>
      have hf := checkTokenRemoval_token_fields cfg mon t s traded now false
      calc t.peakPriceSinceLastSell
          = (updateTokenPrice cfg mon t s traded (.err e) now bL sL outcome).token.peakPriceSinceLastSell :=
            (hf.2.2.2.2.2.1).symm
        _ ≤ _ := le_refl _
    | ok q =>
      have hfr := pricePhase_frame mon t (.ok q) now
      have hf := checkTokenRemoval_token_fields cfg mon
        (checkTradingOpportunities cfg (pricePhase mon t (.ok q) now) s traded now bL sL outcome).token
        (checkTradingOpportunities cfg (pricePhase mon t (.ok q) now) s traded now bL sL outcome).stats
        (checkTradingOpportunities cfg (pricePhase mon t (.ok q) now) s traded now bL sL outcome).traded
        now
        (checkTradingOpportunities cfg (pricePhase mon t (.ok q) now) s traded now bL sL outcome).removed
      have ho2' : (checkTradingOpportunities cfg (pricePhase mon t (.ok q) now) s traded
          now bL sL outcome).token.positionOpen = true := by
        rw [← hf.2.2.2.1]
        exact ho2
      have hmono := checkTradingOpportunities_peak_mono cfg
        (pricePhase mon t (.ok q) now) s traded now bL sL outcome
        (by rw [hfr.2.1]; exact ho) ho2'
      rw [hfr.1] at hmono
      calc t.peakPriceSinceLastSell
          ≤ (checkTradingOpportunities cfg (pricePhase mon t (.ok q) now) s traded
              now bL sL outcome).token.peakPriceSinceLastSell := hmono
        _ = _ := (hf.2.2.2.2.2.1).symm
  · intro hd ho2
    cases res with
    | err e => simp [updateTokenPrice] at hd
    | ok q =>
      have hf := checkTokenRemoval_token_fields cfg mon
        (checkTradingOpportunities cfg (pricePhase mon t (.ok q) now) s traded now bL sL outcome).token
        (checkTradingOpportunities cfg (pricePhase mon t (.ok q) now) s traded now bL sL outcome).stats
        (checkTradingOpportunities cfg (pricePhase mon t (.ok q) now) s traded now bL sL outcome).traded
        now
        (checkTradingOpportunities cfg (pricePhase mon t (.ok q) now) s traded now bL sL outcome).removed
      have ho2' : (checkTradingOpportunities cfg (pricePhase mon t (.ok q) now) s traded
          now bL sL outcome).token.positionOpen = true := by
        rw [← hf.2.2.2.1]
        exact ho2
      have hrs := checkTradingOpportunities_entry_reset cfg
        (pricePhase mon t (.ok q) now) s traded now bL sL outcome hd ho2'
      calc (updateTokenPrice cfg mon t s traded (.ok q) now bL sL outcome).token.peakPriceSinceLastSell
          = (checkTradingOpportunities cfg (pricePhase mon t (.ok q) now) s traded
              now bL sL outcome).token.peakPriceSinceLastSell := hf.2.2.2.2.2.1
        _ = (checkTradingOpportunities cfg (pricePhase mon t (.ok q) now) s traded
              now bL sL outcome).token.buyPriceUSD := hrs
        _ = _ := (hf.2.2.2.2.1).symm

/-- Witness for C4_position_invariant: the fresh closed-position token tokW
satisfies the invariant, and a tick with a successful read at price 7 keeps
it. -/
theorem C4_position_invariant_witness :
    tokenInv tokW ∧
    tokenInv (updateTokenPrice cfgW monW tokW statsW [] (.ok ⟨1, 7⟩) 1 false false
        outS).token :=
  ⟨⟨by norm_num [tokW, initialToken], by norm_num [tokW, initialToken],
      fun h => absurd h (by simp [tokW, initialToken])⟩,
   (C4_position_invariant cfgW monW tokW statsW [] (.ok ⟨1, 7⟩) 1 false false outS
      ⟨by norm_num [tokW, initialToken], by norm_num [tokW, initialToken],
        fun h => absurd h (by simp [tokW, initialToken])⟩
      (fun q hq => by
        cases hq
        norm_num)).1⟩

/-! ## C5: per-token trade cap -/

/-- Helper: executeBuy never changes the trade count. -/
theorem executeBuy_tradeCount (cfg : TradingConfig) (t : Token) (s : TradeStats)
    (outcome : TradeOutcome) (now : ℚ) :
    (executeBuy cfg t s outcome now).1.tradeCount = t.tradeCount := by
  simp only [executeBuy, buySuccessState]
  repeat' split
  all_goals simp

/-- Helper: executeSell either keeps the trade count or increments it while
staying strictly below the per-token cap. -/
theorem executeSell_tradeCount (cfg : TradingConfig) (t : Token) (s : TradeStats)
    (traded : List String) (mode : SellMode) (outcome : TradeOutcome) (now : ℚ)
    (removed : Bool) :
    (executeSell cfg t s traded mode outcome now removed).1.tradeCount = t.tradeCount ∨
    ((executeSell cfg t s traded mode outcome now removed).1.tradeCount
        = t.tradeCount + 1 ∧
      t.tradeCount + 1 < cfg.maxTradesPerCycle.getD 2) := by
  simp only [executeSell, fullSellSuccess, removeTokenFromMonitoring]
  repeat' split
  all_goals simp_all

/-- Helper: one trading evaluation either keeps the trade count or
increments it while staying strictly below the per-token cap. -/
theorem checkTradingOpportunities_tradeCount (cfg : TradingConfig) (t : Token)
    (s : TradeStats) (traded : List String) (now : ℚ) (bL sL : Bool)
    (outcome : TradeOutcome) :
    (checkTradingOpportunities cfg t s traded now bL sL outcome).token.tradeCount
        = t.tradeCount ∨
    ((checkTradingOpportunities cfg t s traded now bL sL outcome).token.tradeCount
        = t.tradeCount + 1 ∧
      t.tradeCount + 1 < cfg.maxTradesPerCycle.getD 2) := by
  simp only [checkTradingOpportunities]
  split
  · split
    · exact Or.inl rfl
    · exact Or.inl (executeBuy_tradeCount cfg _ s outcome now)
  · split
    · have hpc : (peakUpdated t).tradeCount = t.tradeCount := by
        unfold peakUpdated
        split <;> rfl
      split
      · split
        · exact Or.inl hpc
        · have := executeSell_tradeCount cfg { peakUpdated t with hasSoldHalf := true }
            s traded .half outcome now false
          simpa [hpc] using this
      · split
        · split
          · exact Or.inl hpc
          · have := executeSell_tradeCount cfg (peakUpdated t) s traded .all outcome now false
            simpa [hpc] using this
        · split
          · split
            · exact Or.inl hpc
            · have := executeSell_tradeCount cfg (peakUpdated t) s traded .all outcome now false
              simpa [hpc] using this
          · split
            · split
              · exact Or.inl hpc
              · have := executeSell_tradeCount cfg (peakUpdated t) s traded .all outcome now false
                simpa [hpc] using this
            · exact Or.inl hpc
    · exact Or.inl rfl

/-- C5: with a configured per-token cap, a tick never pushes the trade count
above the cap, and once the trade count has reached the cap no buy is
dispatched by the tick. -/
theorem C5_trade_cap (cfg : TradingConfig) (mon : MonitoringConfig) (t : Token)
    (s : TradeStats) (traded : List String) (res : PriceResult) (now : ℚ)
    (bL sL : Bool) (outcome : TradeOutcome) (cap : Nat)
    (hcap : cfg.maxTradesPerCycle = some cap) (hle : t.tradeCount ≤ cap) :
    (updateTokenPrice cfg mon t s traded res now bL sL outcome).token.tradeCount ≤ cap ∧
    (cap ≤ t.tradeCount →
      (updateTokenPrice cfg mon t s traded res now bL sL outcome).dispatched
        ≠ some .buyDispatch) := by
  constructor
  · cases res with
    | err e =>
      have hf := checkTokenRemoval_token_fields cfg mon t s traded now false
      calc (updateTokenPrice cfg mon t s traded (.err e) now bL sL outcome).token.tradeCount
          = t.tradeCount := hf.2.2.2.2.2.2.2.2.1
        _ ≤ cap := hle
    | ok q =>
      have hfr := pricePhase_frame mon t (.ok q) now
      have hf := checkTokenRemoval_token_fields cfg mon
        (checkTradingOpportunities cfg (pricePhase mon t (.ok q) now) s traded now bL sL outcome).token
        (checkTradingOpportunities cfg (pricePhase mon t (.ok q) now) s traded now bL sL outcome).stats
        (checkTradingOpportunities cfg (pricePhase mon t (.ok q) now) s traded now bL sL outcome).traded
        now
        (checkTradingOpportunities cfg (pricePhase mon t (.ok q) now) s traded now bL sL outcome).removed
      have hcnt := checkTradingOpportunities_tradeCount cfg
        (pricePhase mon t (.ok q) now) s traded now bL sL outcome
      rw [hfr.2.2.2.2.1] at hcnt
      have : (updateTokenPrice cfg mon t s traded (.ok q) now bL sL outcome).token.tradeCount
          = (checkTradingOpportunities cfg (pricePhase mon t (.ok q) now) s traded
              now bL sL outcome).token.tradeCount := hf.2.2.2.2.2.2.2.2.1
      rw [this]
      rcases hcnt with h | ⟨h, hlt⟩
      · rw [h]
        exact hle
      · rw [h]
        rw [hcap] at hlt
        exact Nat.le_of_lt_succ (Nat.lt_succ_of_lt hlt)
  · intro hge hd
    cases res with
    | err e => simp [updateTokenPrice] at hd
    | ok q =>
      have hfr := pricePhase_frame mon t (.ok q) now
      have hcb := dispatch_buy_canBuy cfg (pricePhase mon t (.ok q) now) s traded
        now bL sL outcome hd
      have hlt := ((canBuy_iff cfg (pricePhase mon t (.ok q) now)).mp hcb).2.1
      rw [hfr.2.2.2.2.1, hcap] at hlt
      exact absurd hge (Nat.not_le.mpr hlt)

/-- Witness for C5_trade_cap at the fresh token under the cap 2. -/
theorem C5_trade_cap_witness :
    (updateTokenPrice cfgW monW tokW statsW [] (.ok ⟨1, 7⟩) 1 false false
        outS).token.tradeCount ≤ 2 :=
  (C5_trade_cap cfgW monW tokW statsW [] (.ok ⟨1, 7⟩) 1 false false outS 2 rfl
    (by decide)).1

/-! ## C6: the traded set is final for discovery -/

/-- Helper: set insertion preserves membership. -/
theorem mem_tradedInsert (a x : String) (l : List String) (h : a ∈ l) :
    a ∈ tradedInsert x l := by
  unfold tradedInsert
  split
  · exact h
  · exact List.mem_cons_of_mem _ h

/-- Helper: executeSell only ever inserts into the traded set. -/
theorem executeSell_traded_mono (cfg : TradingConfig) (t : Token) (s : TradeStats)
    (traded : List String) (mode : SellMode) (outcome : TradeOutcome) (now : ℚ)
    (removed : Bool) (a : String) (h : a ∈ traded) :
    a ∈ (executeSell cfg t s traded mode outcome now removed).2.2.1 := by
  simp only [executeSell, fullSellSuccess, removeTokenFromMonitoring]
  repeat' split
  all_goals first
    | exact h
    | exact mem_tradedInsert _ _ _ h

/-- Helper: trading evaluation only ever inserts into the traded set. -/
theorem checkTradingOpportunities_traded_mono (cfg : TradingConfig) (t : Token)
    (s : TradeStats) (traded : List String) (now : ℚ) (bL sL : Bool)
    (outcome : TradeOutcome) (a : String) (h : a ∈ traded) :
    a ∈ (checkTradingOpportunities cfg t s traded now bL sL outcome).traded := by
  simp only [checkTradingOpportunities]
  repeat' split
  all_goals first
    | exact h
    | exact executeSell_traded_mono cfg _ s traded _ outcome now false a h

/-- Helper: removal evaluation only ever inserts into the traded set. -/
theorem checkTokenRemoval_traded_mono (cfg : TradingConfig) (mon : MonitoringConfig)
    (t : Token) (s : TradeStats) (traded : List String) (now : ℚ) (removed : Bool)
    (a : String) (h : a ∈ traded) :
    a ∈ (checkTokenRemoval cfg mon t s traded now removed).2.2.1 := by
  simp only [checkTokenRemoval, removeTokenFromMonitoring]
  repeat' split
  all_goals first
    | exact h
    | exact mem_tradedInsert _ _ _ h

/-- Helper: a tick only ever inserts into the traded set. -/
theorem updateTokenPrice_traded_mono (cfg : TradingConfig) (mon : MonitoringConfig)
    (t : Token) (s : TradeStats) (traded : List String) (res : PriceResult)
    (now : ℚ) (bL sL : Bool) (outcome : TradeOutcome) (a : String)
    (h : a ∈ traded) :
    a ∈ (updateTokenPrice cfg mon t s traded res now bL sL outcome).traded := by
  cases res with
  | err e => exact checkTokenRemoval_traded_mono cfg mon t s traded now false a h
  | ok q =>
    exact checkTokenRemoval_traded_mono cfg mon _ _ _ now _ a
      (checkTradingOpportunities_traded_mono cfg _ s traded now bL sL outcome a h)

/-- Helper: rewriting values at an existing key cannot make an absent key
appear. -/
theorem lookup_none_map_keyfix (l : List (String × Token)) (addr a : String)
    (tk : Token) (h : l.lookup a = none) :
    (l.map (fun p => if p.1 = addr then (addr, tk) else p)).lookup a = none := by
  induction l with
  | nil => rfl
  | cons p rest ih =>
    cases p with
    | mk k v =>
      by_cases hk : (a == k) = true
      · simp [List.lookup, hk] at h
      · have hk' : (a == k) = false := by simpa using hk
        simp only [List.lookup, hk'] at h
        by_cases hka : k = addr
        · subst hka
          have hfk : (if (k, v).1 = k then (k, tk) else (k, v)) = (k, tk) := by simp
          rw [List.map_cons, hfk]
          simp only [List.lookup, hk']
          exact ih h
        · have hfk : (if (k, v).1 = addr then (addr, tk) else (k, v)) = (k, v) := by
            simp [hka]
          rw [List.map_cons, hfk]
          simp only [List.lookup, hk']
          exact ih h

/-- Helper: filtering cannot make an absent key appear. -/
theorem lookup_none_filter (l : List (String × Token)) (a : String)
    (q : String × Token → Bool) (h : l.lookup a = none) :
    (l.filter q).lookup a = none := by
  induction l with
  | nil => rfl
  | cons p rest ih =>
    cases p with
    | mk k v =>
      by_cases hk : (a == k) = true
      · simp [List.lookup, hk] at h
      · have hk' : (a == k) = false := by simpa using hk
        simp only [List.lookup, hk'] at h
        simp only [List.filter]
        cases hq : q (k, v)
        · exact ih h
        · simp only [List.lookup, hk']
          exact ih h

/-- Helper: discovery is a no-op for a traded address. -/
theorem processNewToken_traded_noop (mon : MonitoringConfig)
    (patterns : List TradingPattern) (st : ServiceState) (tc : TokenCreation)
    (priceRead : PriceResult) (now : ℚ)
    (htr : jsToLower tc.tokenAddress ∈ st.tradedTokens) :
    processNewToken mon patterns st tc priceRead now = st := by
  simp only [processNewToken]
  rcases matchPattern tc patterns with _ | p
  · rfl
  · simp only []
    split
    · rfl
    · rw [if_pos (by simpa using htr)]

/-- Helper: discovery preserves the traded set and never resurrects a traded
address in the registry. -/
theorem processNewToken_preserves (mon : MonitoringConfig)
    (patterns : List TradingPattern) (st : ServiceState) (tc : TokenCreation)
    (priceRead : PriceResult) (now : ℚ) (addr : String)
    (htr : addr ∈ st.tradedTokens)
    (hmon : st.monitoredTokens.lookup addr = none) :
    addr ∈ (processNewToken mon patterns st tc priceRead now).tradedTokens ∧
    (processNewToken mon patterns st tc priceRead now).monitoredTokens.lookup addr
      = none := by
  simp only [processNewToken]
  rcases matchPattern tc patterns with _ | p
  · exact ⟨htr, hmon⟩
  · simp only []
    split
    · exact ⟨htr, hmon⟩
    · split
      · exact ⟨htr, hmon⟩
      · split
        · exact ⟨htr, hmon⟩
        · rcases priceRead with q | e
          · refine ⟨htr, ?_⟩
            have hne : (addr == jsToLower tc.tokenAddress) = false := by
              rename_i hcon _
              have : jsToLower tc.tokenAddress ∉ st.tradedTokens := by
                simpa using hcon
              simp only [beq_eq_false_iff_ne, ne_eq]
              intro he
              exact this (he ▸ htr)
            simp only [List.lookup, hne]
            exact hmon
          · exact ⟨htr, hmon⟩

/-- Helper: a tick preserves the traded set and never resurrects a traded
address in the registry. -/
theorem serviceTick_preserves (cfg : TradingConfig) (mon : MonitoringConfig)
    (st : ServiceState) (addr0 : String) (res : PriceResult) (now : ℚ)
    (bL sL : Bool) (outcome : TradeOutcome) (addr : String)
    (htr : addr ∈ st.tradedTokens)
    (hmon : st.monitoredTokens.lookup addr = none) :
    addr ∈ (serviceTick cfg mon st addr0 res now bL sL outcome).tradedTokens ∧
    (serviceTick cfg mon st addr0 res now bL sL outcome).monitoredTokens.lookup addr
      = none := by
  rcases hl : st.monitoredTokens.lookup addr0 with _ | t <;>
    simp only [serviceTick, hl]
  · exact ⟨htr, hmon⟩
  · refine ⟨updateTokenPrice_traded_mono cfg mon t st.tradeStats st.tradedTokens
      res now bL sL outcome addr htr, ?_⟩
    split
    · exact lookup_none_filter _ _ _ hmon
    · exact lookup_none_map_keyfix _ _ _ _ hmon

/-- C6: once an address is in the traded set (and out of the registry), any
sequence of discovery and tick steps keeps it in the traded set and out of
the registry, and discovery of a creation event for that address leaves the
registry unchanged (idempotent discovery for traded tokens). -/
theorem C6_traded_never_reinserted (cfg : TradingConfig) (mon : MonitoringConfig)
    (patterns : List TradingPattern) (st : ServiceState)
    (steps : List ServiceStep) (addr : String)
    (htr : addr ∈ st.tradedTokens)
    (hmon : st.monitoredTokens.lookup addr = none) :
    addr ∈ (runSteps cfg mon patterns st steps).tradedTokens ∧
    (runSteps cfg mon patterns st steps).monitoredTokens.lookup addr = none ∧
    (∀ tc priceRead now, jsToLower tc.tokenAddress = addr →
      processNewToken mon patterns (runSteps cfg mon patterns st steps) tc priceRead now
        = runSteps cfg mon patterns st steps) := by
  have hrun : addr ∈ (runSteps cfg mon patterns st steps).tradedTokens ∧
      (runSteps cfg mon patterns st steps).monitoredTokens.lookup addr = none := by
    induction steps generalizing st with
    | nil => exact ⟨htr, hmon⟩
    | cons step rest ih =>
      cases step with
      | discover tc priceRead now =>
        have h1 := processNewToken_preserves mon patterns st tc priceRead now addr
          htr hmon
        exact ih _ h1.1 h1.2
      | tick addr0 res now bL sL outcome =>
        have h1 := serviceTick_preserves cfg mon st addr0 res now bL sL outcome addr
          htr hmon
        exact ih _ h1.1 h1.2
  refine ⟨hrun.1, hrun.2, fun tc priceRead now he => ?_⟩
  exact processNewToken_traded_noop mon patterns _ tc priceRead now (he ▸ hrun.1)

def addrW : String := "0xtoken"

def stW : ServiceState := ⟨[], [addrW], statsW⟩

def stepsW : List ServiceStep :=
  [.discover evC1 (.ok ⟨1, 5⟩) 0, .tick addrW (.err msgW) 1 false false outF]

/-- Witness for C6_traded_never_reinserted: with addrW already traded, a
discovery step for the same address and a tick leave it out of the registry,
and a further discovery is a no-op. -/
theorem C6_traded_never_reinserted_witness :
    addrW ∈ (runSteps cfgW monW [patA] stW stepsW).tradedTokens ∧
    (runSteps cfgW monW [patA] stW stepsW).monitoredTokens.lookup addrW = none ∧
    processNewToken monW [patA] (runSteps cfgW monW [patA] stW stepsW) evC1
        (.ok ⟨1, 5⟩) 2
      = runSteps cfgW monW [patA] stW stepsW := by
  have h := C6_traded_never_reinserted cfgW monW [patA] stW stepsW addrW
    (by decide) rfl
  exact ⟨h.1, h.2.1, h.2.2 evC1 (.ok ⟨1, 5⟩) 2 (by decide)⟩
